import Mathlib

/-!
Shallow embedding of `burnman/main.py` (elastic moduli pipeline):
per-phase moduli evaluation, volume-fraction averaging, seismic velocity
derivation, attenuation correction, and the L2 / chi-factor misfit scorers.
Machine floats are modelled by elements of a linear ordered field (`ℚ` for
concrete evaluation, `ℝ` where square roots appear); `numpy.sqrt` of a
negative argument yields NaN, modelled as `none : Option ℝ`.
-/

namespace Burnman

variable {α : Type} [LinearOrderedField α]

/-- Embedding of the class `elastic_properties`: five parallel sequences
V [m^3], rho [kg/m^3], K [Pa], G [Pa], fraction, aligned by index. -/
structure elastic_properties (α : Type) where
  V : List α
  rho : List α
  K : List α
  G : List α
  fraction : List α

/-- All five sequences of a record have length `n` (the per-record shape
invariant maintained by `set_size` and the fill loops). -/
def hasSize (m : elastic_properties α) (n : ℕ) : Prop :=
  m.V.length = n ∧ m.rho.length = n ∧ m.K.length = n ∧ m.G.length = n ∧
    m.fraction.length = n

instance (m : elastic_properties α) (n : ℕ) : Decidable (hasSize m n) := by
  unfold hasSize; infer_instance

instance : Inhabited (elastic_properties α) := ⟨⟨[], [], [], [], []⟩⟩

/-- Interface of a mineral / equation-of-state object: each observable is a
function of the thermodynamic state (pressure, temperature) set by the
enclosing rock's `set_state` (the code sets the state, then reads these). -/
structure mineral (α : Type) where
  molar_volume : α → α → α
  molar_mass : α → α → α
  adiabatic_bulk_modulus : α → α → α
  shear_modulus : α → α → α

/-- Phase entry of a composite: a mineral plus a scalar molar fraction. -/
structure phase (α : Type) where
  mineral : mineral α
  fraction : α

/-- Interface of the `composite` rock container: an ordered phase list.
`set_state` is modelled by the minerals being functions of (P, T). -/
structure composite (α : Type) where
  phases : List (phase α)

/-- Interface of an averaging scheme (module `averaging_schemes`): three pure
functions taking per-phase volume fractions and per-phase moduli/densities. -/
structure averaging_scheme (α : Type) where
  average_bulk_moduli : List α → List α → List α → α
  average_shear_moduli : List α → List α → List α → α
  average_density : List α → List α → α

/-- Embedding of `calculate_moduli`: for each phase, one `elastic_properties`
record; at evaluation index idx the state is (pressures[idx],
temperatures[idx]) and the record holds V = fraction * molar_volume,
K = adiabatic_bulk_modulus, G = shear_modulus, rho = molar_mass /
molar_volume, fraction = the phase's fraction. -/
def calculate_moduli (rock : composite α) (pressures temperatures : List α) :
    List (elastic_properties α) :=
  rock.phases.map (fun ph =>
    { V := (pressures.zip temperatures).map
        (fun pt => ph.fraction * ph.mineral.molar_volume pt.1 pt.2)
      K := (pressures.zip temperatures).map
        (fun pt => ph.mineral.adiabatic_bulk_modulus pt.1 pt.2)
      G := (pressures.zip temperatures).map
        (fun pt => ph.mineral.shear_modulus pt.1 pt.2)
      rho := (pressures.zip temperatures).map
        (fun pt => ph.mineral.molar_mass pt.1 pt.2 /
          ph.mineral.molar_volume pt.1 pt.2)
      fraction := (pressures.zip temperatures).map (fun _ => ph.fraction) })

/-- The line `V_mol = np.array(V_ph)*np.array(fractions)` of `average_moduli`
at evaluation index idx: per-phase molar-volume contributions. -/
def V_mol_at (moduli_list : List (elastic_properties α)) (idx : ℕ) : List α :=
  moduli_list.map (fun m => m.V.getD idx 0 * m.fraction.getD idx 0)

/-- The line `V_frac = V_mol/sum(V_mol)` of `average_moduli` at index idx:
normalized volume fractions. -/
def V_frac_at (moduli_list : List (elastic_properties α)) (idx : ℕ) : List α :=
  (V_mol_at moduli_list idx).map (fun v => v / (V_mol_at moduli_list idx).sum)

/-- Embedding of `average_moduli`: one bulk record of length
`len(moduli_list[0].V)`; at each index the scheme is applied to the
volume fractions, V is the total molar volume, fraction is 1.0. -/
def average_moduli (moduli_list : List (elastic_properties α))
    (scheme : averaging_scheme α) : elastic_properties α :=
  let n_pressures := moduli_list.headI.V.length
  { V := (List.range n_pressures).map
      (fun idx => (V_mol_at moduli_list idx).sum)
    rho := (List.range n_pressures).map
      (fun idx => scheme.average_density (V_frac_at moduli_list idx)
        (moduli_list.map (fun m => m.rho.getD idx 0)))
    K := (List.range n_pressures).map
      (fun idx => scheme.average_bulk_moduli (V_frac_at moduli_list idx)
        (moduli_list.map (fun m => m.K.getD idx 0))
        (moduli_list.map (fun m => m.G.getD idx 0)))
    G := (List.range n_pressures).map
      (fun idx => scheme.average_shear_moduli (V_frac_at moduli_list idx)
        (moduli_list.map (fun m => m.K.getD idx 0))
        (moduli_list.map (fun m => m.G.getD idx 0)))
    fraction := (List.range n_pressures).map (fun _ => 1) }

/-- Model of `numpy.sqrt` on a machine float: a negative argument produces
NaN (no exception), modelled as `none`. -/
noncomputable def npSqrt (x : ℝ) : Option ℝ :=
  if x < 0 then none else some (Real.sqrt x)

/-- Embedding of `compute_velocities`: three sequences of length
`len(moduli.V)` with, at index i, Vp = sqrt((K + 4/3 G)/rho),
Vs = sqrt(G/rho), Vphi = sqrt(K/rho), returned in the order
(Vp, Vs, Vphi). -/
noncomputable def compute_velocities (moduli : elastic_properties ℝ) :
    List (Option ℝ) × List (Option ℝ) × List (Option ℝ) :=
  ((List.range moduli.V.length).map (fun i =>
      npSqrt ((moduli.K.getD i 0 + 4 / 3 * moduli.G.getD i 0) /
        moduli.rho.getD i 0)),
   (List.range moduli.V.length).map (fun i =>
      npSqrt (moduli.G.getD i 0 / moduli.rho.getD i 0)),
   (List.range moduli.V.length).map (fun i =>
      npSqrt (moduli.K.getD i 0 / moduli.rho.getD i 0)))

/-- Splits a list of triples into a triple of lists (the three output arrays
filled by the loop of `apply_attenuation_correction`). -/
def unzip3 : List (α × α × α) → List α × List α × List α
  | [] => ([], [], [])
  | (a, b, c) :: t =>
      let r := unzip3 t
      (a :: r.1, b :: r.2.1, c :: r.2.2)

/-- Embedding of `apply_attenuation_correction`: loops i over
`range(len(v_p))` applying the external pointwise correction
(`seismic.attenuation_correction`, passed here as the function f); an
index beyond `v_s` or `v_phi` raises IndexError, modelled as `none`. -/
def apply_attenuation_correction (f : α → α → α → α → α → α × α × α)
    (v_p v_s v_phi : List α) (Qs Qphi : α) :
    Option (List α × List α × List α) :=
  if v_s.length < v_p.length ∨ v_phi.length < v_p.length then none
  else some (unzip3 ((List.range v_p.length).map (fun i =>
    f (v_p.getD i 0) (v_s.getD i 0) (v_phi.getD i 0) Qs Qphi)))

/-- Embedding of `scipy.integrate.trapz(y, x)`: the trapezoidal rule,
sum of (x[i+1] - x[i]) * (y[i] + y[i+1]) / 2. -/
def trapz : List α → List α → α
  | y0 :: y1 :: ys, x0 :: x1 :: xs =>
      (x1 - x0) * (y0 + y1) / 2 + trapz (y1 :: ys) (x1 :: xs)
  | _, _ => 0

/-- Embedding of `l2`: squared pointwise difference, trapezoidal integral
over x, normalized by the span x[-1] - x[0]; the `assert(length>0)` failure
is modelled as `none`. -/
def l2 (x funca funcb : List α) : Option α :=
  let diff := (funca.zip funcb).map (fun p => (p.1 - p.2) * (p.1 - p.2))
  let length := x.getLast?.getD 0 - x.head?.getD 0
  if 0 < length then some (trapz diff x / length) else none

/-- Embedding of `compare_l2`: applies `l2` to the density, Vphi and Vs
profiles and returns the three errors (a failing assert propagates). -/
def compare_l2 (depth mat_vs mat_vphi mat_rho seis_vs seis_vphi seis_rho :
    List α) : Option (α × α × α) :=
  match l2 depth mat_rho seis_rho, l2 depth mat_vphi seis_vphi,
      l2 depth mat_vs seis_vs with
  | some rho_err_tot, some vphi_err_tot, some vs_err_tot =>
      some (rho_err_tot, vphi_err_tot, vs_err_tot)
  | _, _, _ => none

/-- Embedding of `numpy.mean`. -/
def npMean (l : List α) : α := l.sum / l.length

/-- Embedding of `chi_factor`: err[i] = ((calc[i] - obs[i]) /
(0.01 * mean(obs)))^2 for i in range(len(calc)), returning
sum(err)/len(err). A non-finite float result is modelled as `none`: when
the denominator 0.01 * mean(obs) is the float zero, every err[i] is NaN
(zero numerator) or +infinity (nonzero numerator), so sum(err)/len(err)
is non-finite; when len(err) = 0 the final sum(err)/len(err) is
0.0/0 = NaN. Otherwise every intermediate is finite and the result is the
exact field value. -/
def chi_factor (calc' obs : List α) : Option α :=
  let err := (List.range calc'.length).map (fun i =>
    ((calc'.getD i 0 - obs.getD i 0) / (1 / 100 * npMean obs)) ^ 2)
  if calc'.length = 0 ∨ 1 / 100 * npMean obs = 0 then none
  else some (err.sum / err.length)

/-- Embedding of `compare_chifactor`: applies `chi_factor` to the density,
Vphi and Vs profiles and returns the three errors (a NaN, modelled as
`none`, propagates into the returned triple — nothing raises). -/
def compare_chifactor (mat_vs mat_vphi mat_rho seis_vs seis_vphi seis_rho :
    List α) : Option α × Option α × Option α :=
  (chi_factor mat_rho seis_rho, chi_factor mat_vphi seis_vphi,
   chi_factor mat_vs seis_vs)

/-- Modelled from the spec: the Voigt averaging scheme (the module
`averaging_schemes` is not part of the given sources) — the weighted
arithmetic mean of the per-phase moduli / densities, weighted by the given
volume fractions. -/
def voigt : averaging_scheme ℚ :=
  { average_bulk_moduli := fun fractions K_ph _ =>
      ((fractions.zip K_ph).map (fun p => p.1 * p.2)).sum
    average_shear_moduli := fun fractions _ G_ph =>
      ((fractions.zip G_ph).map (fun p => p.1 * p.2)).sum
    average_density := fun fractions rho_ph =>
      ((fractions.zip rho_ph).map (fun p => p.1 * p.2)).sum }

/-- The two-phase example rock of the spec: fractions [0.5, 0.5], molar
volumes [1e-5, 2e-5] m^3, K = [200e9, 100e9] Pa, G = [100e9, 50e9] Pa;
molar masses chosen so rho = molar_mass / molar_volume = [4000, 3000]. -/
def example_rock : composite ℚ :=
  { phases :=
      [ { mineral :=
            { molar_volume := fun _ _ => 1 / 100000
              molar_mass := fun _ _ => 4 / 100
              adiabatic_bulk_modulus := fun _ _ => 200000000000
              shear_modulus := fun _ _ => 100000000000 }
          fraction := 1 / 2 },
        { mineral :=
            { molar_volume := fun _ _ => 2 / 100000
              molar_mass := fun _ _ => 6 / 100
              adiabatic_bulk_modulus := fun _ _ => 100000000000
              shear_modulus := fun _ _ => 50000000000 }
          fraction := 1 / 2 } ] }

/-- A trivial averaging scheme over ℚ, used to instantiate generic lemmas. -/
def zero_scheme : averaging_scheme ℚ :=
  { average_bulk_moduli := fun _ _ _ => 0
    average_shear_moduli := fun _ _ _ => 0
    average_density := fun _ _ => 0 }

/-- A one-phase rock over ℚ with constant mineral outputs, used to
instantiate generic lemmas. -/
def unit_rock : composite ℚ :=
  { phases :=
      [ { mineral :=
            { molar_volume := fun _ _ => 1
              molar_mass := fun _ _ => 1
              adiabatic_bulk_modulus := fun _ _ => 1
              shear_modulus := fun _ _ => 1 }
          fraction := 1 } ] }

/-- A one-record moduli list over ℚ with unit entries, used to instantiate
generic lemmas on a concrete input. -/
def unit_moduli : List (elastic_properties ℚ) := [⟨[1], [1], [1], [1], [1]⟩]

/-- A one-point record over ℝ with K = G = 0 and rho = 1. -/
def zero_KG_record : elastic_properties ℝ := ⟨[1], [1], [0], [0], [1]⟩

/-- A one-point record over ℝ with K = -1, G = 0, rho = 1, so that the
radicands of Vp and Vphi are negative. -/
def nan_record : elastic_properties ℝ := ⟨[1], [1], [-1], [0], [1]⟩

/-- A one-point record over ℝ with K = G = rho = 1. -/
def ones_record : elastic_properties ℝ := ⟨[1], [1], [1], [1], [1]⟩

/-! Helper lemmas shared by the claim theorems. -/

theorem getD_map_range {β : Type} (f : ℕ → β) (n i : ℕ) (d : β) (h : i < n) :
    ((List.range n).map f).getD i d = f i := by
  simp [List.getD_eq_getElem?_getD, List.getElem?_map, List.getElem?_range h]

theorem trapz_eq_zero (y x : List α) (h : ∀ v ∈ y, v = 0) : trapz y x = 0 := by
  induction y generalizing x with
  | nil => cases x <;> simp [trapz]
  | cons y0 ys ih =>
    cases ys with
    | nil => cases x <;> simp [trapz]
    | cons y1 ys' =>
      cases x with
      | nil => simp [trapz]
      | cons x0 xs =>
        cases xs with
        | nil => simp [trapz]
        | cons x1 xs' =>
          have h0 : y0 = 0 := h y0 (by simp)
          have h1 : y1 = 0 := h y1 (by simp)
          have hrest : ∀ v ∈ y1 :: ys', v = 0 := by
            intro v hv
            exact h v (List.mem_cons_of_mem _ hv)
          have hih := ih (x1 :: xs') hrest
          rw [h1] at hih
          simp [trapz, h0, h1, hih]

/-- C7 counterexample: `calculate_moduli` applied to a rock with an empty
phase list returns normally (with the empty list of per-phase records); no
error is raised on this input. -/
theorem calculate_moduli_empty_counterexample :
    calculate_moduli (⟨[]⟩ : composite ℚ) [0] [0] = [] := rfl

/-- C7 (amended): for every pressures/temperatures input, `calculate_moduli`
applied to a rock whose phase list is empty returns the empty list of
per-phase records; it does not fail. -/
theorem calculate_moduli_empty {α : Type} [LinearOrderedField α]
    (pressures temperatures : List α) :
    calculate_moduli (⟨[]⟩ : composite α) pressures temperatures = [] := rfl

/-- C4: on the spec's two-phase example rock (fractions [0.5, 0.5], molar
volumes [1e-5, 2e-5], K = [200e9, 100e9], G = [100e9, 50e9],
rho = [4000, 3000]), composing `calculate_moduli` (which stores
V = fraction * molar_volume) with the normalization of `average_moduli`
yields volume fractions [1/3, 2/3], and the Voigt bulk modulus is
1/3 * 200e9 + 2/3 * 100e9 = 400e9/3. -/
theorem example_rock_voigt_K :
    V_frac_at (calculate_moduli example_rock [0] [0]) 0 = [1 / 3, 2 / 3] ∧
    (average_moduli (calculate_moduli example_rock [0] [0]) voigt).K.getD 0 0 =
      400000000000 / 3 := by
  constructor
  · norm_num [V_frac_at, V_mol_at, calculate_moduli, example_rock, List.getD]
  · norm_num [average_moduli, voigt, V_frac_at, V_mol_at, calculate_moduli,
      example_rock, List.getD, List.range_succ]

/-- C1: for every non-empty list of per-phase records of equal length n and
every index i < n, `average_moduli` forms the molar-volume contributions
V_mol[p] = V[p] * fraction[p], normalizes them into volume fractions
V_frac[p] = V_mol[p] / sum(V_mol), delegates the bulk K, G, rho at index i
to the scheme's average_bulk_moduli / average_shear_moduli / average_density
applied to those volume fractions, and sets V[i] = sum(V_mol) and
fraction[i] = 1.0 in the bulk record. -/
theorem average_moduli_spec {α : Type} [LinearOrderedField α]
    (L : List (elastic_properties α)) (s : averaging_scheme α) (n i : ℕ)
    (hL : L ≠ []) (hsize : ∀ m ∈ L, hasSize m n) (hi : i < n) :
    V_mol_at L i = L.map (fun m => m.V.getD i 0 * m.fraction.getD i 0) ∧
    V_frac_at L i = (V_mol_at L i).map (fun v => v / (V_mol_at L i).sum) ∧
    (average_moduli L s).K.getD i 0 =
      s.average_bulk_moduli (V_frac_at L i)
        (L.map (fun m => m.K.getD i 0)) (L.map (fun m => m.G.getD i 0)) ∧
    (average_moduli L s).G.getD i 0 =
      s.average_shear_moduli (V_frac_at L i)
        (L.map (fun m => m.K.getD i 0)) (L.map (fun m => m.G.getD i 0)) ∧
    (average_moduli L s).rho.getD i 0 =
      s.average_density (V_frac_at L i) (L.map (fun m => m.rho.getD i 0)) ∧
    (average_moduli L s).V.getD i 0 = (V_mol_at L i).sum ∧
    (average_moduli L s).fraction.getD i 0 = 1 := by
  have hhead : L.headI.V.length = n := (hsize _ (List.head!_mem_self hL)).1
  have hi' : i < L.headI.V.length := hhead ▸ hi
  refine ⟨rfl, rfl, ?_, ?_, ?_, ?_, ?_⟩ <;>
    simp only [average_moduli] <;> exact getD_map_range _ _ _ _ hi'

/-- C1 witness: the specification of `average_moduli` instantiated on a
concrete one-phase, one-point moduli list with the trivial scheme. -/
theorem average_moduli_spec_witness :
    (unit_moduli ≠ [] ∧ (∀ m ∈ unit_moduli, hasSize m 1) ∧ 0 < 1) ∧
    (V_mol_at unit_moduli 0 =
      unit_moduli.map (fun m => m.V.getD 0 0 * m.fraction.getD 0 0) ∧
    V_frac_at unit_moduli 0 =
      (V_mol_at unit_moduli 0).map (fun v => v / (V_mol_at unit_moduli 0).sum) ∧
    (average_moduli unit_moduli zero_scheme).K.getD 0 0 =
      zero_scheme.average_bulk_moduli (V_frac_at unit_moduli 0)
        (unit_moduli.map (fun m => m.K.getD 0 0))
        (unit_moduli.map (fun m => m.G.getD 0 0)) ∧
    (average_moduli unit_moduli zero_scheme).G.getD 0 0 =
      zero_scheme.average_shear_moduli (V_frac_at unit_moduli 0)
        (unit_moduli.map (fun m => m.K.getD 0 0))
        (unit_moduli.map (fun m => m.G.getD 0 0)) ∧
    (average_moduli unit_moduli zero_scheme).rho.getD 0 0 =
      zero_scheme.average_density (V_frac_at unit_moduli 0)
        (unit_moduli.map (fun m => m.rho.getD 0 0)) ∧
    (average_moduli unit_moduli zero_scheme).V.getD 0 0 =
      (V_mol_at unit_moduli 0).sum ∧
    (average_moduli unit_moduli zero_scheme).fraction.getD 0 0 = 1) :=
  ⟨⟨by simp [unit_moduli], by decide, by decide⟩,
   average_moduli_spec unit_moduli zero_scheme 1 0 (by simp [unit_moduli])
     (by decide) (by decide)⟩

/-- C3: `calculate_moduli` produces one record per phase, each with all five
field sequences of length equal to the number of evaluation points (the
length of the pressures input), and the bulk record built from them by
`average_moduli` satisfies the same invariant. -/
theorem moduli_size_invariant {α : Type} [LinearOrderedField α]
    (rock : composite α) (pressures temperatures : List α)
    (s : averaging_scheme α)
    (hT : temperatures.length = pressures.length) :
    (calculate_moduli rock pressures temperatures).length =
      rock.phases.length ∧
    (∀ m ∈ calculate_moduli rock pressures temperatures,
      hasSize m pressures.length) ∧
    (rock.phases ≠ [] →
      hasSize (average_moduli (calculate_moduli rock pressures temperatures) s)
        pressures.length) := by
  have hzip : (pressures.zip temperatures).length = pressures.length := by
    simp [List.length_zip, hT]
  refine ⟨by simp [calculate_moduli], ?_, ?_⟩
  · intro m hm
    simp only [calculate_moduli, List.mem_map] at hm
    obtain ⟨ph, _, rfl⟩ := hm
    simp [hasSize, hzip]
  · intro hne
    obtain ⟨phases⟩ := rock
    cases phases with
    | nil => exact absurd rfl hne
    | cons p ps =>
      have hhead :
          (calculate_moduli ⟨p :: ps⟩ pressures temperatures).headI.V.length =
            pressures.length := by
        simp [calculate_moduli, hzip]
      simp [hasSize, average_moduli, hhead]

/-- C3 witness: the size invariant instantiated on a concrete one-phase rock
at a single evaluation point. -/
theorem moduli_size_invariant_witness :
    (([0] : List ℚ).length = ([0] : List ℚ).length) ∧
    ((calculate_moduli unit_rock [0] [0]).length = unit_rock.phases.length ∧
     (∀ m ∈ calculate_moduli unit_rock [0] [0],
       hasSize m ([0] : List ℚ).length) ∧
     (unit_rock.phases ≠ [] →
       hasSize (average_moduli (calculate_moduli unit_rock [0] [0]) zero_scheme)
         ([0] : List ℚ).length)) :=
  ⟨rfl, moduli_size_invariant unit_rock [0] [0] zero_scheme rfl⟩

theorem unzip3_getD {β : Type} (l : List (β × β × β)) (i : ℕ) (d : β) :
    i < l.length →
    ((unzip3 l).1.getD i d, (unzip3 l).2.1.getD i d,
      (unzip3 l).2.2.getD i d) = l.getD i (d, d, d) := by
  induction l generalizing i with
  | nil => intro hi; simp at hi
  | cons a t ih =>
    intro hi
    obtain ⟨x, y, z⟩ := a
    cases i with
    | zero => simp [unzip3]
    | succ j =>
      simp only [unzip3, List.getD_cons_succ]
      exact ih j (by simpa using hi)

theorem unzip3_lengths {β : Type} (l : List (β × β × β)) :
    (unzip3 l).1.length = l.length ∧ (unzip3 l).2.1.length = l.length ∧
      (unzip3 l).2.2.length = l.length := by
  induction l with
  | nil => simp [unzip3]
  | cons a t ih =>
    obtain ⟨⟩ := a
    simp [unzip3, ih.1, ih.2.1, ih.2.2]

/-- C8 counterexample: with v_s and v_phi longer than v_p,
`apply_attenuation_correction` (here with the identity pointwise
correction) returns successfully, silently cutting v_s and v_phi down to
len(v_p) — it does not raise. -/
theorem apply_attenuation_correction_counterexample :
    apply_attenuation_correction (fun a b c _ _ => (a, b, c))
      ([1] : List ℚ) [1, 2] [1, 2] 0 0 = some ([1], [1], [1]) := rfl

/-- C8 (amended): when v_s or v_phi is shorter than v_p the call fails (an
index error while reading past the end); when v_s and v_phi are at least as
long as v_p the call succeeds, silently truncating to len(v_p): it returns
three sequences of length len(v_p) holding the pointwise corrections of the
first len(v_p) entries. -/
theorem apply_attenuation_correction_behavior {α : Type}
    [LinearOrderedField α] (f : α → α → α → α → α → α × α × α)
    (v_p v_s v_phi : List α) (Qs Qphi : α) :
    (v_s.length < v_p.length ∨ v_phi.length < v_p.length →
      apply_attenuation_correction f v_p v_s v_phi Qs Qphi = none) ∧
    (v_p.length ≤ v_s.length → v_p.length ≤ v_phi.length →
      ∃ r, apply_attenuation_correction f v_p v_s v_phi Qs Qphi = some r ∧
        r.1.length = v_p.length ∧ r.2.1.length = v_p.length ∧
        r.2.2.length = v_p.length ∧
        (∀ i < v_p.length, (r.1.getD i 0, r.2.1.getD i 0, r.2.2.getD i 0) =
          f (v_p.getD i 0) (v_s.getD i 0) (v_phi.getD i 0) Qs Qphi)) := by
  constructor
  · intro h
    simp only [apply_attenuation_correction, if_pos h]
  · intro hs hphi
    have hcond : ¬(v_s.length < v_p.length ∨ v_phi.length < v_p.length) := by
      push_neg
      exact ⟨hs, hphi⟩
    refine ⟨unzip3 ((List.range v_p.length).map (fun i =>
        f (v_p.getD i 0) (v_s.getD i 0) (v_phi.getD i 0) Qs Qphi)),
      ?_, ?_, ?_, ?_, ?_⟩
    · simp only [apply_attenuation_correction, if_neg hcond]
    · exact (unzip3_lengths _).1.trans (by simp)
    · exact (unzip3_lengths _).2.1.trans (by simp)
    · exact (unzip3_lengths _).2.2.trans (by simp)
    · intro i hi
      have hlen : i < ((List.range v_p.length).map (fun i =>
          f (v_p.getD i 0) (v_s.getD i 0) (v_phi.getD i 0) Qs Qphi)).length := by
        simpa using hi
      rw [unzip3_getD _ _ _ hlen]
      exact getD_map_range _ _ _ _ hi

/-- C8 witness: the amended behavior instantiated on concrete inputs — a
shorter v_s makes the call fail, while a longer v_s and v_phi are silently
truncated to len(v_p). -/
theorem apply_attenuation_correction_behavior_witness :
    ((([1] : List ℚ).length < ([1, 2] : List ℚ).length ∨
        ([1, 2] : List ℚ).length < ([1, 2] : List ℚ).length) ∧
      apply_attenuation_correction (fun a b c _ _ => (a, b, c))
        ([1, 2] : List ℚ) [1] [1, 2] 0 0 = none) ∧
    (([1] : List ℚ).length ≤ ([1, 2] : List ℚ).length ∧
      ∃ r, apply_attenuation_correction (fun a b c _ _ => (a, b, c))
          ([1] : List ℚ) [1, 2] [1, 2] 0 0 = some r ∧
        r.1.length = ([1] : List ℚ).length ∧
        r.2.1.length = ([1] : List ℚ).length ∧
        r.2.2.length = ([1] : List ℚ).length ∧
        (∀ i < ([1] : List ℚ).length,
          (r.1.getD i 0, r.2.1.getD i 0, r.2.2.getD i 0) =
            (fun a b c _ _ => (a, b, c)) (([1] : List ℚ).getD i 0)
              (([1, 2] : List ℚ).getD i 0) (([1, 2] : List ℚ).getD i 0)
              (0 : ℚ) 0)) :=
  ⟨⟨Or.inl (by decide),
    (apply_attenuation_correction_behavior (fun a b c _ _ => (a, b, c))
      [1, 2] [1] [1, 2] 0 0).1 (Or.inl (by decide))⟩,
   ⟨by decide,
    (apply_attenuation_correction_behavior (fun a b c _ _ => (a, b, c))
      [1] [1, 2] [1, 2] 0 0).2 (by decide) (by decide)⟩⟩

theorem compute_velocities_getD (m : elastic_properties ℝ) (i : ℕ)
    (d : Option ℝ) (hi : i < m.V.length) :
    (compute_velocities m).1.getD i d =
      npSqrt ((m.K.getD i 0 + 4 / 3 * m.G.getD i 0) / m.rho.getD i 0) ∧
    (compute_velocities m).2.1.getD i d =
      npSqrt (m.G.getD i 0 / m.rho.getD i 0) ∧
    (compute_velocities m).2.2.getD i d =
      npSqrt (m.K.getD i 0 / m.rho.getD i 0) :=
  ⟨getD_map_range _ _ _ _ hi, getD_map_range _ _ _ _ hi,
   getD_map_range _ _ _ _ hi⟩

theorem npSqrt_of_nonneg {x : ℝ} (hx : 0 ≤ x) : npSqrt x = some (Real.sqrt x) :=
  if_neg (not_lt.mpr hx)

/-- C2: on a record with rho > 0 and K, G ≥ 0 at every index,
`compute_velocities` returns three sequences of the record's length with,
at each index, Vp = sqrt((K + 4/3 G)/rho), Vs = sqrt(G/rho),
Vphi = sqrt(K/rho); and if moreover K = G = 0 at every index, all three
velocities are 0 at every index. -/
theorem compute_velocities_spec (m : elastic_properties ℝ)
    (hrho : ∀ i < m.V.length, 0 < m.rho.getD i 0)
    (hK : ∀ i < m.V.length, 0 ≤ m.K.getD i 0)
    (hG : ∀ i < m.V.length, 0 ≤ m.G.getD i 0) :
    ((compute_velocities m).1.length = m.V.length ∧
     (compute_velocities m).2.1.length = m.V.length ∧
     (compute_velocities m).2.2.length = m.V.length) ∧
    (∀ i < m.V.length,
      (compute_velocities m).1.getD i none =
        some (Real.sqrt ((m.K.getD i 0 + 4 / 3 * m.G.getD i 0) /
          m.rho.getD i 0)) ∧
      (compute_velocities m).2.1.getD i none =
        some (Real.sqrt (m.G.getD i 0 / m.rho.getD i 0)) ∧
      (compute_velocities m).2.2.getD i none =
        some (Real.sqrt (m.K.getD i 0 / m.rho.getD i 0))) ∧
    ((∀ i < m.V.length, m.K.getD i 0 = 0 ∧ m.G.getD i 0 = 0) →
      ∀ i < m.V.length,
        (compute_velocities m).1.getD i none = some 0 ∧
        (compute_velocities m).2.1.getD i none = some 0 ∧
        (compute_velocities m).2.2.getD i none = some 0) := by
  have hform : ∀ i < m.V.length,
      (compute_velocities m).1.getD i none =
        some (Real.sqrt ((m.K.getD i 0 + 4 / 3 * m.G.getD i 0) /
          m.rho.getD i 0)) ∧
      (compute_velocities m).2.1.getD i none =
        some (Real.sqrt (m.G.getD i 0 / m.rho.getD i 0)) ∧
      (compute_velocities m).2.2.getD i none =
        some (Real.sqrt (m.K.getD i 0 / m.rho.getD i 0)) := by
    intro i hi
    obtain ⟨h1, h2, h3⟩ := compute_velocities_getD m i none hi
    have hrho' := (hrho i hi).le
    have hKi := hK i hi
    have hGi := hG i hi
    refine ⟨?_, ?_, ?_⟩
    · rw [h1, npSqrt_of_nonneg (div_nonneg (by linarith) hrho')]
    · rw [h2, npSqrt_of_nonneg (div_nonneg hGi hrho')]
    · rw [h3, npSqrt_of_nonneg (div_nonneg hKi hrho')]
  refine ⟨⟨by simp [compute_velocities], by simp [compute_velocities],
    by simp [compute_velocities]⟩, hform, ?_⟩
  intro hKG i hi
  obtain ⟨h1, h2, h3⟩ := hform i hi
  obtain ⟨hKi, hGi⟩ := hKG i hi
  simp only [hKi, hGi] at h1 h2 h3
  refine ⟨?_, ?_, ?_⟩
  · rw [h1]; norm_num
  · rw [h2]; norm_num
  · rw [h3]; norm_num

/-- C2 witness: the velocity formulas instantiated on a concrete one-point
record with K = G = 0 and rho = 1. -/
theorem compute_velocities_spec_witness :
    ((∀ i < zero_KG_record.V.length, 0 < zero_KG_record.rho.getD i 0) ∧
     (∀ i < zero_KG_record.V.length, 0 ≤ zero_KG_record.K.getD i 0) ∧
     (∀ i < zero_KG_record.V.length, 0 ≤ zero_KG_record.G.getD i 0)) ∧
    (((compute_velocities zero_KG_record).1.length =
        zero_KG_record.V.length ∧
      (compute_velocities zero_KG_record).2.1.length =
        zero_KG_record.V.length ∧
      (compute_velocities zero_KG_record).2.2.length =
        zero_KG_record.V.length) ∧
     (∀ i < zero_KG_record.V.length,
       (compute_velocities zero_KG_record).1.getD i none =
         some (Real.sqrt ((zero_KG_record.K.getD i 0 +
           4 / 3 * zero_KG_record.G.getD i 0) /
             zero_KG_record.rho.getD i 0)) ∧
       (compute_velocities zero_KG_record).2.1.getD i none =
         some (Real.sqrt (zero_KG_record.G.getD i 0 /
           zero_KG_record.rho.getD i 0)) ∧
       (compute_velocities zero_KG_record).2.2.getD i none =
         some (Real.sqrt (zero_KG_record.K.getD i 0 /
           zero_KG_record.rho.getD i 0))) ∧
     ((∀ i < zero_KG_record.V.length, zero_KG_record.K.getD i 0 = 0 ∧
         zero_KG_record.G.getD i 0 = 0) →
       ∀ i < zero_KG_record.V.length,
         (compute_velocities zero_KG_record).1.getD i none = some 0 ∧
         (compute_velocities zero_KG_record).2.1.getD i none = some 0 ∧
         (compute_velocities zero_KG_record).2.2.getD i none = some 0)) := by
  have hrho : ∀ i < zero_KG_record.V.length,
      0 < zero_KG_record.rho.getD i 0 := by
    intro i hi
    rw [Nat.lt_one_iff.mp hi]
    norm_num [zero_KG_record]
  have hK : ∀ i < zero_KG_record.V.length,
      0 ≤ zero_KG_record.K.getD i 0 := by
    intro i hi
    rw [Nat.lt_one_iff.mp hi]
    norm_num [zero_KG_record]
  have hG : ∀ i < zero_KG_record.V.length,
      0 ≤ zero_KG_record.G.getD i 0 := by
    intro i hi
    rw [Nat.lt_one_iff.mp hi]
    norm_num [zero_KG_record]
  exact ⟨⟨hrho, hK, hG⟩, compute_velocities_spec zero_KG_record hrho hK hG⟩

/-- C9 counterexample: on a record with K = -1, G = 0, rho = 1 the radicands
of Vp and Vphi are negative, and `compute_velocities` returns a full result
(it does not fail) with NaN — modelled as `none` — at that index. -/
theorem compute_velocities_nan_counterexample :
    compute_velocities nan_record = ([none], [some 0], [none]) := by
  have h1 : ((-1 : ℝ) + 4 / 3 * 0) / 1 < 0 := by norm_num
  have h2 : ¬((0 : ℝ) / 1 < 0) := by norm_num
  have h3 : ((-1 : ℝ) / 1) < 0 := by norm_num
  simp [compute_velocities, nan_record, npSqrt, List.range_succ, List.getD,
    h1, h2, h3]

/-- C9 (amended): when the quantity under a square root is negative at an
index, `compute_velocities` does not fail: it still returns three sequences
of the record's full length, with NaN (modelled as `none`) at that index for
the affected velocity. -/
theorem compute_velocities_nan (m : elastic_properties ℝ) (i : ℕ)
    (hi : i < m.V.length) :
    ((compute_velocities m).1.length = m.V.length ∧
     (compute_velocities m).2.1.length = m.V.length ∧
     (compute_velocities m).2.2.length = m.V.length) ∧
    ((m.K.getD i 0 + 4 / 3 * m.G.getD i 0) / m.rho.getD i 0 < 0 →
      (compute_velocities m).1.getD i (some 0) = none) ∧
    (m.G.getD i 0 / m.rho.getD i 0 < 0 →
      (compute_velocities m).2.1.getD i (some 0) = none) ∧
    (m.K.getD i 0 / m.rho.getD i 0 < 0 →
      (compute_velocities m).2.2.getD i (some 0) = none) := by
  obtain ⟨h1, h2, h3⟩ := compute_velocities_getD m i (some 0) hi
  refine ⟨⟨by simp [compute_velocities], by simp [compute_velocities],
    by simp [compute_velocities]⟩, ?_, ?_, ?_⟩
  · intro hneg
    rw [h1, npSqrt, if_pos hneg]
  · intro hneg
    rw [h2, npSqrt, if_pos hneg]
  · intro hneg
    rw [h3, npSqrt, if_pos hneg]

/-- C9 witness: the amended NaN behavior instantiated on the concrete record
with K = -1, G = 0, rho = 1 at its only index. -/
theorem compute_velocities_nan_witness :
    (0 < nan_record.V.length ∧
      (nan_record.K.getD 0 0 + 4 / 3 * nan_record.G.getD 0 0) /
        nan_record.rho.getD 0 0 < 0 ∧
      nan_record.K.getD 0 0 / nan_record.rho.getD 0 0 < 0) ∧
    (((compute_velocities nan_record).1.length = nan_record.V.length ∧
      (compute_velocities nan_record).2.1.length = nan_record.V.length ∧
      (compute_velocities nan_record).2.2.length = nan_record.V.length) ∧
     ((nan_record.K.getD 0 0 + 4 / 3 * nan_record.G.getD 0 0) /
         nan_record.rho.getD 0 0 < 0 →
       (compute_velocities nan_record).1.getD 0 (some 0) = none) ∧
     (nan_record.G.getD 0 0 / nan_record.rho.getD 0 0 < 0 →
       (compute_velocities nan_record).2.1.getD 0 (some 0) = none) ∧
     (nan_record.K.getD 0 0 / nan_record.rho.getD 0 0 < 0 →
       (compute_velocities nan_record).2.2.getD 0 (some 0) = none)) :=
  ⟨⟨by norm_num [nan_record], by norm_num [nan_record, List.getD],
    by norm_num [nan_record, List.getD]⟩,
   compute_velocities_nan nan_record 0 (by norm_num [nan_record])⟩

/-- C10: on a record with K ≥ 0, G ≥ 0, rho > 0 at every index, the
velocities of `compute_velocities` satisfy Vs ≤ Vp and Vphi ≤ Vp at every
index. -/
theorem compute_velocities_ordered (m : elastic_properties ℝ)
    (hrho : ∀ i < m.V.length, 0 < m.rho.getD i 0)
    (hK : ∀ i < m.V.length, 0 ≤ m.K.getD i 0)
    (hG : ∀ i < m.V.length, 0 ≤ m.G.getD i 0) :
    ∀ i < m.V.length, ∃ p s phi : ℝ,
      (compute_velocities m).1.getD i none = some p ∧
      (compute_velocities m).2.1.getD i none = some s ∧
      (compute_velocities m).2.2.getD i none = some phi ∧
      s ≤ p ∧ phi ≤ p := by
  intro i hi
  obtain ⟨h1, h2, h3⟩ :=
    (compute_velocities_spec m hrho hK hG).2.1 i hi
  have hrho' := hrho i hi
  have hKi := hK i hi
  have hGi := hG i hi
  refine ⟨_, _, _, h1, h2, h3, ?_, ?_⟩
  · exact Real.sqrt_le_sqrt ((div_le_div_iff_of_pos_right hrho').mpr (by linarith))
  · exact Real.sqrt_le_sqrt ((div_le_div_iff_of_pos_right hrho').mpr (by linarith))

/-- C10 witness: the velocity ordering instantiated on a concrete one-point
record with K = G = rho = 1. -/
theorem compute_velocities_ordered_witness :
    ((∀ i < ones_record.V.length, 0 < ones_record.rho.getD i 0) ∧
     (∀ i < ones_record.V.length, 0 ≤ ones_record.K.getD i 0) ∧
     (∀ i < ones_record.V.length, 0 ≤ ones_record.G.getD i 0)) ∧
    (∀ i < ones_record.V.length, ∃ p s phi : ℝ,
      (compute_velocities ones_record).1.getD i none = some p ∧
      (compute_velocities ones_record).2.1.getD i none = some s ∧
      (compute_velocities ones_record).2.2.getD i none = some phi ∧
      s ≤ p ∧ phi ≤ p) := by
  have hrho : ∀ i < ones_record.V.length, 0 < ones_record.rho.getD i 0 := by
    intro i hi
    rw [Nat.lt_one_iff.mp hi]
    norm_num [ones_record]
  have hK : ∀ i < ones_record.V.length, 0 ≤ ones_record.K.getD i 0 := by
    intro i hi
    rw [Nat.lt_one_iff.mp hi]
    norm_num [ones_record]
  have hG : ∀ i < ones_record.V.length, 0 ≤ ones_record.G.getD i 0 := by
    intro i hi
    rw [Nat.lt_one_iff.mp hi]
    norm_num [ones_record]
  exact ⟨⟨hrho, hK, hG⟩, compute_velocities_ordered ones_record hrho hK hG⟩

theorem mem_zip_self {β : Type} (l : List β) (p : β × β) (hp : p ∈ l.zip l) :
    p.1 = p.2 := by
  induction l with
  | nil => simp [List.zip] at hp
  | cons a t ih =>
    rw [List.zip_cons_cons, List.mem_cons] at hp
    rcases hp with rfl | hp
    · rfl
    · exact ih hp

theorem trapz_sq_diff_self_eq_zero (l x : List α) :
    trapz ((l.zip l).map (fun p => (p.1 - p.2) * (p.1 - p.2))) x = 0 := by
  apply trapz_eq_zero
  intro v hv
  simp only [List.mem_map] at hv
  obtain ⟨p, hp, rfl⟩ := hv
  rw [mem_zip_self l p hp]
  ring

/-- C5: the L2 scorer returns, for each of density, Vphi, Vs, the
trapezoidal integral over depth of the squared pointwise difference divided
by the depth span; it fails (the assert, modelled as `none`) when the span
is not strictly positive; and on identical profiles it returns 0 for all
three quantities. -/
theorem compare_l2_spec {α : Type} [LinearOrderedField α]
    (depth mat_vs mat_vphi mat_rho seis_vs seis_vphi seis_rho : List α)
    (hvs : mat_vs.length = seis_vs.length)
    (hvphi : mat_vphi.length = seis_vphi.length)
    (hrho : mat_rho.length = seis_rho.length) :
    (0 < depth.getLast?.getD 0 - depth.head?.getD 0 →
      compare_l2 depth mat_vs mat_vphi mat_rho seis_vs seis_vphi seis_rho =
        some
          (trapz ((mat_rho.zip seis_rho).map
              (fun p => (p.1 - p.2) * (p.1 - p.2))) depth /
            (depth.getLast?.getD 0 - depth.head?.getD 0),
           trapz ((mat_vphi.zip seis_vphi).map
              (fun p => (p.1 - p.2) * (p.1 - p.2))) depth /
            (depth.getLast?.getD 0 - depth.head?.getD 0),
           trapz ((mat_vs.zip seis_vs).map
              (fun p => (p.1 - p.2) * (p.1 - p.2))) depth /
            (depth.getLast?.getD 0 - depth.head?.getD 0))) ∧
    (¬ 0 < depth.getLast?.getD 0 - depth.head?.getD 0 →
      compare_l2 depth mat_vs mat_vphi mat_rho seis_vs seis_vphi seis_rho =
        none) ∧
    (mat_vs = seis_vs → mat_vphi = seis_vphi → mat_rho = seis_rho →
      0 < depth.getLast?.getD 0 - depth.head?.getD 0 →
      compare_l2 depth mat_vs mat_vphi mat_rho seis_vs seis_vphi seis_rho =
        some (0, 0, 0)) := by
  refine ⟨?_, ?_, ?_⟩
  · intro h
    simp only [compare_l2, l2, if_pos h]
  · intro h
    simp only [compare_l2, l2, if_neg h]
  · intro e1 e2 e3 h
    subst e1; subst e2; subst e3
    simp only [compare_l2, l2, if_pos h, trapz_sq_diff_self_eq_zero, zero_div]

/-- C5 witness: the L2 scorer instantiated on a concrete increasing depth
axis with identical computed and observed profiles. -/
theorem compare_l2_spec_witness :
    (([1, 1] : List ℚ).length = ([1, 1] : List ℚ).length ∧
     0 < ([0, 1] : List ℚ).getLast?.getD 0 - ([0, 1] : List ℚ).head?.getD 0) ∧
    ((0 < ([0, 1] : List ℚ).getLast?.getD 0 - ([0, 1] : List ℚ).head?.getD 0 →
      compare_l2 ([0, 1] : List ℚ) [1, 1] [1, 1] [1, 1] [1, 1] [1, 1] [1, 1] =
        some
          ((trapz ((([1, 1] : List ℚ).zip [1, 1]).map
              (fun p => (p.1 - p.2) * (p.1 - p.2))) [0, 1]) /
            (([0, 1] : List ℚ).getLast?.getD 0 - ([0, 1] : List ℚ).head?.getD 0),
           (trapz ((([1, 1] : List ℚ).zip [1, 1]).map
              (fun p => (p.1 - p.2) * (p.1 - p.2))) [0, 1]) /
            (([0, 1] : List ℚ).getLast?.getD 0 - ([0, 1] : List ℚ).head?.getD 0),
           (trapz ((([1, 1] : List ℚ).zip [1, 1]).map
              (fun p => (p.1 - p.2) * (p.1 - p.2))) [0, 1]) /
            (([0, 1] : List ℚ).getLast?.getD 0 -
              ([0, 1] : List ℚ).head?.getD 0))) ∧
     (¬ 0 < ([0, 1] : List ℚ).getLast?.getD 0 -
          ([0, 1] : List ℚ).head?.getD 0 →
      compare_l2 ([0, 1] : List ℚ) [1, 1] [1, 1] [1, 1] [1, 1] [1, 1] [1, 1] =
        none) ∧
     (([1, 1] : List ℚ) = [1, 1] → ([1, 1] : List ℚ) = [1, 1] →
      ([1, 1] : List ℚ) = [1, 1] →
      0 < ([0, 1] : List ℚ).getLast?.getD 0 - ([0, 1] : List ℚ).head?.getD 0 →
      compare_l2 ([0, 1] : List ℚ) [1, 1] [1, 1] [1, 1] [1, 1] [1, 1] [1, 1] =
        some (0, 0, 0))) :=
  ⟨⟨rfl, by norm_num [List.getLast?]⟩,
   compare_l2_spec [0, 1] [1, 1] [1, 1] [1, 1] [1, 1] [1, 1] [1, 1]
     rfl rfl rfl⟩

/-- C6 counterexample: on the identical non-empty profiles [0] (whose
observed mean is 0), the real code computes 0.0/(0.01*0) = NaN at every
point and `compare_chifactor` returns NaN for all three quantities —
modelled as `none` — not 0. -/
theorem compare_chifactor_counterexample :
    compare_chifactor ([0] : List ℚ) [0] [0] [0] [0] [0] =
      (none, none, none) ∧
    compare_chifactor ([0] : List ℚ) [0] [0] [0] [0] [0] ≠
      (some 0, some 0, some 0) := by
  have h : chi_factor ([0] : List ℚ) [0] = none := by
    rw [chi_factor]
    exact if_pos (Or.inr (by norm_num [npMean]))
  refine ⟨?_, ?_⟩ <;> simp [compare_chifactor, h]

/-- C6 (amended): for equal-length non-empty profiles, the chi-factor
scorer returns, for each of density, Vphi, Vs, a separate scalar (not
summed); when the observed mean is nonzero that scalar is the mean over
evaluation points of ((calc[i] - obs[i]) / (0.01 * mean(obs)))^2, and on
identical profiles with nonzero observed means all three results are 0;
when an observed mean is zero the corresponding result is a non-finite
float (NaN on identical profiles, modelled as `none`), not 0. -/
theorem compare_chifactor_spec {α : Type} [LinearOrderedField α]
    (mat_vs mat_vphi mat_rho seis_vs seis_vphi seis_rho : List α)
    (h1 : mat_vs.length = seis_vs.length)
    (h2 : mat_vphi.length = seis_vphi.length)
    (h3 : mat_rho.length = seis_rho.length)
    (n1 : mat_vs ≠ []) (n2 : mat_vphi ≠ []) (n3 : mat_rho ≠ []) :
    compare_chifactor mat_vs mat_vphi mat_rho seis_vs seis_vphi seis_rho =
      (chi_factor mat_rho seis_rho, chi_factor mat_vphi seis_vphi,
       chi_factor mat_vs seis_vs) ∧
    (∀ calc' obs : List α, calc' ≠ [] → npMean obs ≠ 0 →
      chi_factor calc' obs =
        some (((List.range calc'.length).map (fun i =>
          ((calc'.getD i 0 - obs.getD i 0) /
            (1 / 100 * (obs.sum / (obs.length : α)))) ^ 2)).sum /
              (calc'.length : α))) ∧
    (∀ calc' obs : List α, npMean obs = 0 → chi_factor calc' obs = none) ∧
    (mat_vs = seis_vs → mat_vphi = seis_vphi → mat_rho = seis_rho →
      npMean seis_vs ≠ 0 → npMean seis_vphi ≠ 0 → npMean seis_rho ≠ 0 →
      compare_chifactor mat_vs mat_vphi mat_rho seis_vs seis_vphi seis_rho =
        (some 0, some 0, some 0)) := by
  have hz : ∀ l : List α, l ≠ [] → npMean l ≠ 0 → chi_factor l l = some 0 := by
    intro l hne hm
    have hd : (1 : α) / 100 * npMean l ≠ 0 :=
      mul_ne_zero (by norm_num) hm
    have hlen : l.length ≠ 0 := by simpa using hne
    rw [chi_factor, if_neg (by push_neg; exact ⟨hlen, hd⟩)]
    simp
  refine ⟨rfl, ?_, ?_, ?_⟩
  · intro c o hne hm
    have hd : (1 : α) / 100 * npMean o ≠ 0 :=
      mul_ne_zero (by norm_num) hm
    have hlen : c.length ≠ 0 := by simpa using hne
    rw [chi_factor, if_neg (by push_neg; exact ⟨hlen, hd⟩)]
    simp [npMean]
  · intro c o hm
    rw [chi_factor]
    exact if_pos (Or.inr (by rw [hm, mul_zero]))
  · intro e1 e2 e3 m1 m2 m3
    subst e1; subst e2; subst e3
    simp only [compare_chifactor, hz _ n1 m1, hz _ n2 m2, hz _ n3 m3]

/-- C6 witness: the amended chi-factor behavior instantiated on concrete
identical one-point profiles with nonzero observed mean. -/
theorem compare_chifactor_spec_witness :
    (([1] : List ℚ).length = ([1] : List ℚ).length ∧ ([1] : List ℚ) ≠ []) ∧
    (compare_chifactor ([1] : List ℚ) [1] [1] [1] [1] [1] =
      (chi_factor ([1] : List ℚ) [1], chi_factor ([1] : List ℚ) [1],
       chi_factor ([1] : List ℚ) [1]) ∧
    (∀ calc' obs : List ℚ, calc' ≠ [] → npMean obs ≠ 0 →
      chi_factor calc' obs =
        some (((List.range calc'.length).map (fun i =>
          ((calc'.getD i 0 - obs.getD i 0) /
            (1 / 100 * (obs.sum / (obs.length : ℚ)))) ^ 2)).sum /
              (calc'.length : ℚ))) ∧
    (∀ calc' obs : List ℚ, npMean obs = 0 → chi_factor calc' obs = none) ∧
    (([1] : List ℚ) = [1] → ([1] : List ℚ) = [1] → ([1] : List ℚ) = [1] →
      npMean ([1] : List ℚ) ≠ 0 → npMean ([1] : List ℚ) ≠ 0 →
      npMean ([1] : List ℚ) ≠ 0 →
      compare_chifactor ([1] : List ℚ) [1] [1] [1] [1] [1] =
        (some 0, some 0, some 0))) :=
  ⟨⟨rfl, by simp⟩,
   compare_chifactor_spec [1] [1] [1] [1] [1] [1] rfl rfl rfl
     (by simp) (by simp) (by simp)⟩

end Burnman
